import Mathlib

/-!
# Weavetree: MDP runtime and MCTS engine, shallow embedding

The repository exposes a compiled-MDP runtime and an MCTS search engine
through Python bindings; the native core is not part of the checked-in
sources, so the definitions below are modelled from the specification
(each such definition's doc comment says so).  Probabilities, rewards and
values are embedded as rationals; 64-bit integers as naturals reduced
mod 2^64 where overflow matters.
-/

set_option autoImplicit false

namespace Weavetree

/-- Modelled from the spec: the error kinds of §7 (the native error type is
not in the sources).  Each kind carries a human-readable message. -/
inductive Err where
  | parseError (msg : String)
  | validationError (msg : String)
  | domainError (msg : String)
  | configError (msg : String)
  | policyError (msg : String)
deriving DecidableEq, Repr

/-- `true` exactly on the validation-error kind. -/
def Err.isValidation : Err → Bool
  | .validationError _ => true
  | _ => false

/-! ## RngStream (§4.2) -/

/-- Modelled from the spec: one advance of the deterministic 64-bit RNG
state (the native generator is not in the sources; any fixed deterministic
recurrence realises §4.2, here an LCG reduced mod 2^64). -/
def rngNext (s : Nat) : Nat :=
  (6364136223846793005 * s + 1442695040888963407) % 2 ^ 64

/-- Modelled from the spec: `uniform_f64() → [0, 1)` as a rational draw
together with the advanced RNG state. -/
def rngUniform (s : Nat) : ℚ × Nat :=
  let s' := rngNext s
  ((s' : ℚ) / 2 ^ 64, s')

/-- Modelled from the spec: the RNG state seeded by a 64-bit seed. -/
def rngOfSeed (seed : Nat) : Nat := seed % 2 ^ 64

/-! ## Data model (§3) -/

/-- A compiled outcome: `next` is already a dense `StateKey`. -/
structure Outcome where
  next : Nat
  prob : ℚ
  reward : ℚ
deriving DecidableEq, Repr

/-- A compiled action: outcomes indexed per state in declaration order. -/
structure ActionSpec where
  id : String
  outcomes : List Outcome
deriving DecidableEq, Repr

/-- A compiled state. -/
structure StateSpec where
  id : String
  terminal : Bool
  actions : List ActionSpec
deriving DecidableEq, Repr

/-- Modelled from the spec: the validated, index-addressed MDP.  State keys
are positions in `states`. -/
structure CompiledMdp where
  states : List StateSpec
  start : Nat
deriving DecidableEq, Repr

/-- Host-exposed `state_count`. -/
def CompiledMdp.state_count (m : CompiledMdp) : Nat := m.states.length

/-- Host-exposed `start_state_key`. -/
def CompiledMdp.start_state_key (m : CompiledMdp) : Nat := m.start

/-- Host-exposed `state_id(key)`. -/
def CompiledMdp.state_id (m : CompiledMdp) (k : Nat) : Option String :=
  (m.states.get? k).map (·.id)

/-- Host-exposed `is_terminal(key)`: out-of-range keys count as terminal. -/
def CompiledMdp.is_terminal (m : CompiledMdp) (k : Nat) : Bool :=
  match m.states.get? k with
  | some s => s.terminal
  | none => true

/-! ## Declarative input and the compiler (§4.1) -/

/-- A declarative outcome: `next` is still a state-id string. -/
structure OutcomeDecl where
  next : String
  prob : ℚ
  reward : ℚ
deriving DecidableEq, Repr

/-- A declarative action. -/
structure ActionDecl where
  id : String
  outcomes : List OutcomeDecl
deriving DecidableEq, Repr

/-- A declarative state. -/
structure StateDecl where
  id : String
  terminal : Bool
  actions : List ActionDecl
deriving DecidableEq, Repr

/-- A declarative MDP document (after parsing, which is external). -/
structure MdpDoc where
  start : String
  states : List StateDecl
deriving DecidableEq, Repr

/-- Position of the first state declaration with the given id. -/
def idOf? : List StateDecl → String → Option Nat
  | [], _ => none
  | s :: rest, x =>
    if s.id = x then some 0 else (idOf? rest x).map (· + 1)

/-- The probability-sum tolerance `1e-6` of §4.1, as an exact rational. -/
def probTol : ℚ := 1 / 1000000

/-- Sum of the declared outcome probabilities of one action. -/
def probSum (a : ActionDecl) : ℚ :=
  (a.outcomes.map (·.prob)).sum

/-- Validation step 3 for a single action: at least one outcome, every
`next` declared, probability sum within tolerance of 1. -/
def actionOk (doc : MdpDoc) (a : ActionDecl) : Bool :=
  decide (a.outcomes ≠ []) &&
    a.outcomes.all (fun o => (idOf? doc.states o.next).isSome) &&
    decide (|probSum a - 1| ≤ probTol)

/-- Validation steps 3 and 4 for a single state. -/
def stateOk (doc : MdpDoc) (s : StateDecl) : Bool :=
  if s.terminal then decide (s.actions = [])
  else s.actions.all (actionOk doc)

/-- Validation step 2: unique state ids, unique action ids per state. -/
def idsUnique (doc : MdpDoc) : Bool :=
  (doc.states.map (·.id)).Nodup &&
    doc.states.all (fun s => ((s.actions.map (·.id)).Nodup : Bool))

/-- Index rewriting for one outcome; the id is declared when this runs. -/
def compileOutcome (doc : MdpDoc) (o : OutcomeDecl) : Outcome :=
  { next := (idOf? doc.states o.next).getD 0, prob := o.prob, reward := o.reward }

/-- Index rewriting for one action. -/
def compileAction (doc : MdpDoc) (a : ActionDecl) : ActionSpec :=
  { id := a.id, outcomes := a.outcomes.map (compileOutcome doc) }

/-- Index rewriting for one state. -/
def compileState (doc : MdpDoc) (s : StateDecl) : StateSpec :=
  { id := s.id, terminal := s.terminal, actions := s.actions.map (compileAction doc) }

/-- Modelled from the spec: `MdpCompiler` (§4.1), validating in order and
short-circuiting on the first failure, then assigning keys in declaration
order and rewriting string references to state keys.  The native compiler
is not in the sources. -/
def compile (doc : MdpDoc) : Except Err CompiledMdp :=
  match idOf? doc.states doc.start with
  | none => .error (.validationError "start does not reference a declared state")
  | some startKey =>
    if idsUnique doc then
      if doc.states.all (stateOk doc) then
        .ok { states := doc.states.map (compileState doc), start := startKey }
      else .error (.validationError "invalid state declaration")
    else .error (.validationError "duplicate ids")

/-! ## MdpSimulator (§4.4) -/

/-- Cumulative selection over outcome probabilities with a single uniform
draw; the last bucket absorbs drift (§4.2). -/
def pickOutcome : List Outcome → ℚ → Option Outcome
  | [], _ => none
  | [o], _ => some o
  | o :: rest, u => if u < o.prob then some o else pickOutcome rest (u - o.prob)

/-- Modelled from the spec: `MdpSimulator` state, a compiled MDP plus an
owned RNG state.  The native simulator is not in the sources. -/
structure MdpSimState where
  mdp : CompiledMdp
  rng : Nat
deriving DecidableEq, Repr

/-- Host-exposed `MdpSimulator(compiled, seed)`. -/
def mkMdpSim (m : CompiledMdp) (seed : Nat) : MdpSimState :=
  { mdp := m, rng := rngOfSeed seed }

/-- `num_actions_by_key` for the compiled-MDP simulator: 0 for terminal or
out-of-range keys. -/
def mdpNumActions (m : CompiledMdp) (k : Nat) : Nat :=
  match m.states.get? k with
  | some s => if s.terminal then 0 else s.actions.length
  | none => 0

/-- Modelled from the spec: `step_by_key` of `MdpSimulator` (§4.4): domain
errors on bad keys, terminal keys or out-of-range actions; otherwise one
RNG draw selects an outcome by cumulative probability. -/
def mdpStep (s : MdpSimState) (k a : Nat) :
    Except Err ((Nat × ℚ × Bool) × MdpSimState) :=
  match s.mdp.states.get? k with
  | none => .error (.domainError "unknown state key")
  | some st =>
    if st.terminal then .error (.domainError "step on terminal state")
    else
      match st.actions.get? a with
      | none => .error (.domainError "action out of range")
      | some act =>
        let u := (rngUniform s.rng).1
        match pickOutcome act.outcomes u with
        | none => .error (.domainError "action has no outcomes")
        | some o =>
          .ok ((o.next, o.reward, s.mdp.is_terminal o.next),
            { s with rng := (rngUniform s.rng).2 })

/-- The step trace of a simulator over a list of `(state_key, action)`
calls; on an error the call's result is recorded and the state is kept. -/
def mdpTrace (s : MdpSimState) : List (Nat × Nat) → List (Except Err (Nat × ℚ × Bool))
  | [] => []
  | (k, a) :: rest =>
    match mdpStep s k a with
    | .ok (r, s') => .ok r :: mdpTrace s' rest
    | .error e => .error e :: mdpTrace s rest

/-- The simulator state left after a list of `(state_key, action)` calls,
keeping the previous state when a call errors. -/
def mdpRunCalls (s : MdpSimState) : List (Nat × Nat) → MdpSimState
  | [] => s
  | (k, a) :: rest =>
    match mdpStep s k a with
    | .ok (_, s') => mdpRunCalls s' rest
    | .error _ => mdpRunCalls s rest

/-! ## TypedSimulator and the state interner (§4.5, §3) -/

/-- Modelled from the spec: the token of an opaque state as seen by the
binding layer — a string, a byte-string, or some other host value (which is
a type error for interning). -/
inductive Token where
  | str (s : String)
  | bytes (bs : List Nat)
  | other
deriving DecidableEq, Repr

/-- `true` when a token is a string or byte-string. -/
def Token.ok : Token → Bool
  | .str _ => true
  | .bytes _ => true
  | .other => false

/-- Modelled from the spec: a caller-supplied domain (§4.5): opaque state
payloads of type `π`, token function, terminality, action count and a step
function receiving one uniform sample. -/
structure Domain (π : Type) where
  start : π
  state_token : π → Token
  is_terminal : π → Bool
  num_actions : π → Nat
  step : π → Nat → ℚ → π × ℚ × Bool

/-- Position of the first interner entry carrying the given token. -/
def findToken {π : Type} : List (Token × π) → Token → Option (Nat × π)
  | [], _ => none
  | (t, p) :: rest, x =>
    if t = x then some (0, p)
    else (findToken rest x).map (fun q => (q.1 + 1, q.2))

/-- Modelled from the spec: `TypedSimulator` state — the domain, the owned
RNG state, the collision-check flag and the interner, a list of
`(token, payload)` entries whose positions are the state keys. -/
structure TypedSimState (π : Type) where
  dom : Domain π
  rng : Nat
  check : Bool
  entries : List (Token × π)

/-- Modelled from the spec: interning one payload (§4.5): non-string
tokens are a type error; a token already present must map to an equal
payload when the collision check is on, else a collision error; a fresh
token is appended, its key the previous length. -/
def internPayload {π : Type} [DecidableEq π] (check : Bool)
    (dom : Domain π) (entries : List (Token × π)) (p : π) :
    Except Err (Nat × List (Token × π)) :=
  let t := dom.state_token p
  if t.ok then
    match findToken entries t with
    | some (k, q) =>
      if check && decide (q ≠ p) then
        .error (.domainError "token collision between distinct states")
      else .ok (k, entries)
    | none => .ok (entries.length, entries ++ [(t, p)])
  else .error (.domainError "state token must be a string or byte-string")

/-- Modelled from the spec: `TypedSimulator(domain, seed,
check_token_collisions)` — the start state is interned eagerly, so a
type-invalid start token fails construction itself. -/
def mkTypedSim {π : Type} [DecidableEq π] (dom : Domain π) (seed : Nat)
    (check : Bool) : Except Err (TypedSimState π) :=
  match internPayload check dom [] dom.start with
  | .ok (_, entries) =>
    .ok { dom := dom, rng := rngOfSeed seed, check := check, entries := entries }
  | .error e => .error e

/-- `num_actions_by_key` for the typed simulator: 0 for terminal or
unknown keys. -/
def typedNumActions {π : Type} (s : TypedSimState π) (k : Nat) : Nat :=
  match s.entries.get? k with
  | some (_, p) => if s.dom.is_terminal p then 0 else s.dom.num_actions p
  | none => 0

/-- `is_terminal_by_key` for the typed simulator. -/
def typedIsTerminal {π : Type} (s : TypedSimState π) (k : Nat) : Bool :=
  match s.entries.get? k with
  | some (_, p) => s.dom.is_terminal p
  | none => true

/-- Modelled from the spec: `step_by_key` of `TypedSimulator` (§4.5): one
sample is drawn, the domain's `step` is invoked on the owned payload, and
the returned state is interned (with the optional collision check). -/
def typedStep {π : Type} [DecidableEq π] (s : TypedSimState π) (k a : Nat) :
    Except Err ((Nat × ℚ × Bool) × TypedSimState π) :=
  match s.entries.get? k with
  | none => .error (.domainError "unknown state key")
  | some (_, p) =>
    if s.dom.is_terminal p then .error (.domainError "step on terminal state")
    else if s.dom.num_actions p ≤ a then .error (.domainError "action out of range")
    else
      let u := (rngUniform s.rng).1
      let p' := (s.dom.step p a u).1
      match internPayload s.check s.dom s.entries p' with
      | .ok (k', entries') =>
        .ok ((k', (s.dom.step p a u).2.1, (s.dom.step p a u).2.2),
          { s with rng := (rngUniform s.rng).2, entries := entries' })
      | .error e => .error e

/-! ## The polymorphic simulator capability (§4.3) -/

/-- Modelled from the spec: the capability set `{start_key, is_terminal,
num_actions, step}` plus a uniform draw from the owned RNG, over an
explicit simulator-state type `σ`. -/
structure Sim (σ : Type) where
  startKey : σ → Nat
  isTerm : σ → Nat → Bool
  numActs : σ → Nat → Nat
  stepKey : σ → Nat → Nat → Except Err ((Nat × ℚ × Bool) × σ)
  draw : σ → ℚ × σ

/-- The compiled-MDP simulator as a capability. -/
def mdpSim : Sim MdpSimState where
  startKey s := s.mdp.start
  isTerm s k := s.mdp.is_terminal k
  numActs s k := mdpNumActions s.mdp k
  stepKey := mdpStep
  draw s := ((rngUniform s.rng).1, { s with rng := (rngUniform s.rng).2 })

/-- The typed simulator as a capability. -/
def typedSim (π : Type) [DecidableEq π] : Sim (TypedSimState π) where
  startKey _ := 0
  isTerm := typedIsTerminal
  numActs := typedNumActions
  stepKey := typedStep
  draw s := ((rngUniform s.rng).1, { s with rng := (rngUniform s.rng).2 })

/-! ## SearchTree and SearchConfig (§4.6) -/

/-- The two return accumulation modes. -/
inductive ReturnType where
  | discounted
  | undiscounted
deriving DecidableEq, Repr

/-- Modelled from the spec: the search configuration (§4.6). -/
structure SearchConfig where
  iterations : Nat
  c : ℚ
  gamma : ℚ
  max_steps : Nat
  return_type : ReturnType
  fixed_horizon_steps : Option Nat
deriving DecidableEq, Repr

/-- An edge of a search node: per-action statistics bucket. -/
structure Edge where
  action : Nat
  child : Option Nat
  visits : Nat
  total_value : ℚ
deriving DecidableEq, Repr

/-- A node of the search tree arena. -/
structure SearchNode where
  state_key : Nat
  terminal : Bool
  visits : Nat
  children : List Edge
deriving DecidableEq, Repr

/-- Modelled from the spec: the tree arena; `NodeId`s are positions in
`nodes` and the root is node 0. -/
structure SearchTree where
  nodes : List SearchNode
deriving DecidableEq, Repr

/-- Host-exposed `tree(root_key, root_terminal)`: the root is allocated
with the given terminality and the tree is empty of edges. -/
def mkTree (rootKey : Nat) (rootTerminal : Bool) : SearchTree :=
  { nodes := [{ state_key := rootKey, terminal := rootTerminal, visits := 0, children := [] }] }

/-- Apply `f` to the element at one position of a list, if present. -/
def listModify {α : Type} (f : α → α) : Nat → List α → List α
  | _, [] => []
  | 0, x :: xs => f x :: xs
  | i + 1, x :: xs => x :: listModify f i xs

/-- The node at an arena position (a placeholder off the arena). -/
def nodeAt (t : SearchTree) (nid : Nat) : SearchNode :=
  (t.nodes.get? nid).getD { state_key := 0, terminal := true, visits := 0, children := [] }

/-- Apply `f` to one node of the arena. -/
def modNode (nid : Nat) (f : SearchNode → SearchNode) (t : SearchTree) : SearchTree :=
  { nodes := listModify f nid t.nodes }

/-- Wire an edge to a freshly allocated child node. -/
def wireEdge (newNid : Nat) (e : Edge) : Edge :=
  { e with child := some newNid }

/-- Credit one visit and a suffix return to an edge. -/
def bumpEdge (g : ℚ) (e : Edge) : Edge :=
  { e with visits := e.visits + 1, total_value := e.total_value + g }

/-- Replace a node's edge list. -/
def setChildren (cs : List Edge) (nd : SearchNode) : SearchNode :=
  { nd with children := cs }

/-- Credit one visit to a node. -/
def bumpVisits (nd : SearchNode) : SearchNode :=
  { nd with visits := nd.visits + 1 }

/-- One fresh statistics edge per legal action, in action order. -/
def initEdges (n : Nat) : List Edge :=
  (List.range n).map (fun a => { action := a, child := none, visits := 0, total_value := 0 })

/-- Populate a node's edges from its action count on first processing
(the tree is empty of edges until the first iteration). -/
def ensureEdges (t : SearchTree) (nid n : Nat) : SearchTree :=
  modNode nid (fun nd => if nd.children.length = n then nd else setChildren (initEdges n) nd) t

/-- Index of the first edge with no child (the lowest unexpanded action). -/
def firstUnexpanded : List Edge → Option Nat
  | [] => none
  | e :: rest => if e.child.isNone then some 0 else (firstUnexpanded rest).map (· + 1)

/-- Modelled from the spec: a rational surrogate for the UCB1 exploration
radical `sqrt(ln(parent.visits) / e.visits)` (the native code computes it
in `f64`; the exact value is irrelevant once it is scaled by `c`). -/
def exploreTerm (parentVisits edgeVisits : Nat) : ℚ :=
  let lnp : ℚ := (Nat.log 2 parentVisits : ℚ) * 693147 / 1000000
  (Nat.sqrt (lnp / edgeVisits * 1000000000000).floor.toNat : ℚ) / 1000000

/-- The UCB1 score of an edge (§4.6 phase 1). -/
def ucbScore (c : ℚ) (parentVisits : Nat) (e : Edge) : ℚ :=
  e.total_value / e.visits + c * exploreTerm parentVisits e.visits

/-- Argmax scan over the remaining edges, keeping the earlier index on
ties. -/
def bestEdgeIdxAux (c : ℚ) (pv : Nat) : List Edge → Nat → Nat → ℚ → Nat
  | [], _, bi, _ => bi
  | e :: rest, i, bi, bs =>
    if bs < ucbScore c pv e then bestEdgeIdxAux c pv rest (i + 1) i (ucbScore c pv e)
    else bestEdgeIdxAux c pv rest (i + 1) bi bs

/-- The edge index maximizing UCB1, ties broken by the smaller action
index. -/
def bestEdgeIdx (c : ℚ) (pv : Nat) : List Edge → Nat
  | [] => 0
  | e :: rest => bestEdgeIdxAux c pv rest 1 0 (ucbScore c pv e)

/-- The per-iteration step budget: `max_steps` caps selection + rollout
steps and a fixed horizon additionally cuts episodes at a depth counted
from the root. -/
def horizonOk (cfg : SearchConfig) (steps : Nat) : Bool :=
  match cfg.fixed_horizon_steps with
  | some h => steps < h
  | none => true

/-- Whether a selection or rollout step may still be taken at this depth. -/
def stepAllowed (cfg : SearchConfig) (steps : Nat) : Bool :=
  decide (steps < cfg.max_steps) && horizonOk cfg steps

/-- Modelled from the spec: selection and expansion (§4.6 phases 1–2).
Descends from `nid` while nodes are fully expanded, re-sampling each
followed transition and crediting the stored child; at the first node
with an unexpanded action it expands the lowest one, allocating a child
node.  Returns the updated tree and simulator state, the path of
`(node, edge index, reward)` entries, the rollout start key (none when
the leaf is terminal or a budget stopped the phase) and the steps used. -/
def descend {σ : Type} (S : Sim σ) (cfg : SearchConfig) :
    Nat → SearchTree → σ → Nat → Nat → List (Nat × Nat × ℚ) →
    Except Err (SearchTree × σ × List (Nat × Nat × ℚ) × Option Nat × Nat)
  | 0, t, s, _, steps, path => .ok (t, s, path, none, steps)
  | fuel + 1, t, s, nid, steps, path =>
    let node := nodeAt t nid
    if node.terminal then .ok (t, s, path, none, steps)
    else
      let n := S.numActs s node.state_key
      if n = 0 then .ok (t, s, path, none, steps)
      else
        let t1 := ensureEdges t nid n
        let node1 := nodeAt t1 nid
        match firstUnexpanded node1.children with
        | some a =>
          if horizonOk cfg steps then
            match S.stepKey s node1.state_key a with
            | .error e => .error e
            | .ok ((k', r, term), s') =>
              let newNid := t1.nodes.length
              let t2 : SearchTree := { nodes := t1.nodes ++
                [{ state_key := k', terminal := term, visits := 0, children := [] }] }
              let t3 := modNode nid
                (fun nd => setChildren (listModify (wireEdge newNid) a nd.children) nd) t2
              .ok (t3, s', path ++ [(nid, a, r)], if term then none else some k', steps + 1)
          else .ok (t1, s, path, none, steps)
        | none =>
          if stepAllowed cfg steps then
            let a := bestEdgeIdx cfg.c node1.visits node1.children
            match S.stepKey s node1.state_key a with
            | .error e => .error e
            | .ok ((_, r, _), s') =>
              let childNid := match node1.children.get? a with
                | some e => e.child.getD 0
                | none => 0
              descend S cfg fuel t1 s' childNid (steps + 1) (path ++ [(nid, a, r)])
          else .ok (t1, s, path, none, steps)

/-- Modelled from the spec: rollout action choice (§4.6 phase 3): a
caller-supplied policy callback (whose raised error propagates as a
policy error), else a fixed action index clamped to range, else a uniform
draw from the simulator's RNG. -/
def chooseRolloutAction {σ : Type} (S : Sim σ)
    (pol : Option (Nat → Nat → Except String Nat)) (ract : Option Nat)
    (s : σ) (k n : Nat) : Except Err (Nat × σ) :=
  match pol with
  | some p =>
    match p k n with
    | .ok a => .ok (a, s)
    | .error msg => .error (.policyError msg)
  | none =>
    match ract with
    | some a => .ok (min a (n - 1), s)
    | none =>
      .ok (min (Int.toNat ((S.draw s).1 * n).floor) (n - 1), (S.draw s).2)

/-- Modelled from the spec: rollout (§4.6 phase 3): simulate forward from
`k` until terminal, no legal action, or the step budget is exhausted,
collecting the rewards. -/
def rollout {σ : Type} (S : Sim σ) (cfg : SearchConfig)
    (pol : Option (Nat → Nat → Except String Nat)) (ract : Option Nat) :
    Nat → σ → Nat → Nat → List ℚ → Except Err (List ℚ × σ)
  | 0, s, _, _, acc => .ok (acc, s)
  | fuel + 1, s, k, steps, acc =>
    if S.isTerm s k then .ok (acc, s)
    else if S.numActs s k = 0 then .ok (acc, s)
    else if stepAllowed cfg steps then
      match chooseRolloutAction S pol ract s k (S.numActs s k) with
      | .error e => .error e
      | .ok (a, s') =>
        match S.stepKey s' k a with
        | .error e => .error e
        | .ok ((k', r, _), s'') => rollout S cfg pol ract fuel s'' k' (steps + 1) (acc ++ [r])
    else .ok (acc, s)

/-- The suffix returns of a reward sequence: position `i` holds the
return contribution from step `i` onward, discounted per step when the
return type is discounted. -/
def suffixReturns (rt : ReturnType) (gamma : ℚ) : List ℚ → List ℚ
  | [] => []
  | r :: rs =>
    let rest := suffixReturns rt gamma rs
    let k : ℚ := match rt with
      | .discounted => gamma
      | .undiscounted => 1
    (r + k * rest.headD 0) :: rest

/-- Edge-statistics updates of backpropagation: each traversed edge gains
one visit and its suffix return, and the entered child node one visit. -/
def backpropEdges : List ((Nat × Nat × ℚ) × ℚ) → SearchTree → SearchTree
  | [], t => t
  | ((nid, eIdx, _), g) :: rest, t =>
    let childNid := match (nodeAt t nid).children.get? eIdx with
      | some e => e.child.getD 0
      | none => 0
    let t1 := modNode nid
      (fun nd => setChildren (listModify (bumpEdge g) eIdx nd.children) nd) t
    let t2 := modNode childNid bumpVisits t1
    backpropEdges rest t2

/-- Modelled from the spec: backpropagation (§4.6 phase 4): the suffix
returns of path rewards followed by rollout rewards are credited to the
traversed edges; every visited node, root included, gains one visit. -/
def backprop (cfg : SearchConfig) (path : List (Nat × Nat × ℚ))
    (roll : List ℚ) (t : SearchTree) : SearchTree :=
  let rewards := (path.map (fun x => x.2.2)) ++ roll
  let suffixes := suffixReturns cfg.return_type cfg.gamma rewards
  let t0 := modNode 0 bumpVisits t
  backpropEdges (path.zip suffixes) t0

/-- One selection → expansion → rollout → backpropagation cycle. -/
def runIteration {σ : Type} (S : Sim σ) (cfg : SearchConfig)
    (pol : Option (Nat → Nat → Except String Nat)) (ract : Option Nat)
    (t : SearchTree) (s : σ) : Except Err (SearchTree × σ) :=
  match descend S cfg (t.nodes.length + cfg.max_steps + 1) t s 0 0 [] with
  | .error e => .error e
  | .ok (t1, s1, path, rollStart, steps) =>
    match rollStart with
    | none => .ok (backprop cfg path [] t1, s1)
    | some k =>
      match rollout S cfg pol ract (cfg.max_steps + 1) s1 k steps [] with
      | .error e => .error e
      | .ok (rs, s2) => .ok (backprop cfg path rs t1, s2)

/-- The iteration loop of `run`. -/
def runLoop {σ : Type} (S : Sim σ) (cfg : SearchConfig)
    (pol : Option (Nat → Nat → Except String Nat)) (ract : Option Nat) :
    Nat → SearchTree → σ → Except Err (SearchTree × σ)
  | 0, t, s => .ok (t, s)
  | n + 1, t, s =>
    match runIteration S cfg pol ract t s with
    | .error e => .error e
    | .ok (t', s') => runLoop S cfg pol ract n t' s'

/-- The result record of `run`. -/
structure RunResult where
  iterations_completed : Nat
deriving DecidableEq, Repr

/-- Config validation: `gamma ∈ [0,1]`; the enumerations are typed. -/
def validConfig (cfg : SearchConfig) : Bool :=
  decide (0 ≤ cfg.gamma) && decide (cfg.gamma ≤ 1)

/-- Modelled from the spec: `SearchTree.run(sim, config, rollout_action?,
rollout_policy?)` — validates the config, runs `iterations` cycles and
reports the completed count; errors abort and propagate. -/
def run {σ : Type} (S : Sim σ) (cfg : SearchConfig)
    (pol : Option (Nat → Nat → Except String Nat)) (ract : Option Nat)
    (t : SearchTree) (s : σ) : Except Err (RunResult × SearchTree × σ) :=
  if validConfig cfg then
    match runLoop S cfg pol ract cfg.iterations t s with
    | .error e => .error e
    | .ok (t', s') => .ok ({ iterations_completed := cfg.iterations }, t', s')
  else .error (.configError "gamma out of range")

/-- Mean value of an edge. -/
def edgeMean (e : Edge) : ℚ := e.total_value / e.visits

/-- Argmax-by-mean scan over root edges, skipping unvisited edges and
keeping the earlier index on ties. -/
def bestByValueAux : List Edge → Nat → Option (Nat × ℚ) → Option Nat
  | [], _, best => best.map (·.1)
  | e :: rest, i, best =>
    if e.visits = 0 then bestByValueAux rest (i + 1) best
    else
      match best with
      | none => bestByValueAux rest (i + 1) (some (i, edgeMean e))
      | some (bi, bs) =>
        if bs < edgeMean e then bestByValueAux rest (i + 1) (some (i, edgeMean e))
        else bestByValueAux rest (i + 1) (some (bi, bs))

/-- Host-exposed `best_root_action_by_value`: argmax of
`total_value / visits` among root edges with positive visits, ties to the
lower action index. -/
def bestRootActionByValue (t : SearchTree) : Option Nat :=
  bestByValueAux (nodeAt t 0).children 0 none

/-! ## Concrete instances from the binding tests -/

/-- The valid declarative MDP of the binding tests (`VALID_MDP_YAML`). -/
def validDoc : MdpDoc :=
  { start := "s0",
    states := [
      { id := "s0", terminal := false, actions := [
          { id := "a0", outcomes := [
              { next := "s1", prob := 7/10, reward := 1 },
              { next := "s0", prob := 3/10, reward := 0 } ] },
          { id := "a1", outcomes := [
              { next := "s2", prob := 1, reward := -1/5 } ] } ] },
      { id := "s1", terminal := true, actions := [] },
      { id := "s2", terminal := false, actions := [] } ] }

/-- Scenario S1: a single outcome of probability 0.9. -/
def s1Doc : MdpDoc :=
  { start := "s0",
    states := [
      { id := "s0", terminal := false, actions := [
          { id := "a0", outcomes := [
              { next := "s0", prob := 9/10, reward := 1 } ] } ] } ] }

/-- Scenario S2: an outcome referencing an undeclared state. -/
def s2Doc : MdpDoc :=
  { start := "s0",
    states := [
      { id := "s0", terminal := false, actions := [
          { id := "a0", outcomes := [
              { next := "missing", prob := 1, reward := 1 } ] } ] } ] }

/-- Scenario S3: the two-state stochastic MDP of the determinism test. -/
def s3Doc : MdpDoc :=
  { start := "s0",
    states := [
      { id := "s0", terminal := false, actions := [
          { id := "a0", outcomes := [
              { next := "s0", prob := 3/5, reward := 0 },
              { next := "s1", prob := 2/5, reward := 1 } ] } ] },
      { id := "s1", terminal := true, actions := [] } ] }

/-- Scenario S4: two deterministic terminal actions of rewards 1 and 5. -/
def s4Doc : MdpDoc :=
  { start := "s0",
    states := [
      { id := "s0", terminal := false, actions := [
          { id := "a0", outcomes := [ { next := "s1", prob := 1, reward := 1 } ] },
          { id := "a1", outcomes := [ { next := "s2", prob := 1, reward := 5 } ] } ] },
      { id := "s1", terminal := true, actions := [] },
      { id := "s2", terminal := true, actions := [] } ] }

/-- Scenario S6: the linear three-state MDP of the policy-error test. -/
def linDoc : MdpDoc :=
  { start := "s0",
    states := [
      { id := "s0", terminal := false, actions := [
          { id := "a0", outcomes := [ { next := "s1", prob := 1, reward := 0 } ] } ] },
      { id := "s1", terminal := false, actions := [
          { id := "a0", outcomes := [ { next := "s2", prob := 1, reward := 0 } ] } ] },
      { id := "s2", terminal := true, actions := [] } ] }

/-- The compiled form of `s3Doc`, written out. -/
def s3Mdp : CompiledMdp :=
  { start := 0,
    states := [
      { id := "s0", terminal := false, actions := [
          { id := "a0", outcomes := [
              { next := 0, prob := 3/5, reward := 0 },
              { next := 1, prob := 2/5, reward := 1 } ] } ] },
      { id := "s1", terminal := true, actions := [] } ] }

/-- The compiled form of `s4Doc`, written out. -/
def s4Mdp : CompiledMdp :=
  { start := 0,
    states := [
      { id := "s0", terminal := false, actions := [
          { id := "a0", outcomes := [ { next := 1, prob := 1, reward := 1 } ] },
          { id := "a1", outcomes := [ { next := 2, prob := 1, reward := 5 } ] } ] },
      { id := "s1", terminal := true, actions := [] },
      { id := "s2", terminal := true, actions := [] } ] }

/-- The compiled form of `linDoc`, written out. -/
def linMdp : CompiledMdp :=
  { start := 0,
    states := [
      { id := "s0", terminal := false, actions := [
          { id := "a0", outcomes := [ { next := 1, prob := 1, reward := 0 } ] } ] },
      { id := "s1", terminal := false, actions := [
          { id := "a0", outcomes := [ { next := 2, prob := 1, reward := 0 } ] } ] },
      { id := "s2", terminal := true, actions := [] } ] }

/-- The search configuration of scenarios S4 and S5. -/
def s4Cfg : SearchConfig :=
  { iterations := 20, c := 0, gamma := 1, max_steps := 2,
    return_type := .discounted, fixed_horizon_steps := some 2 }

/-- The search configuration of the policy-error test. -/
def linCfg : SearchConfig :=
  { iterations := 20, c := 0, gamma := 1, max_steps := 2,
    return_type := .discounted, fixed_horizon_steps := none }

/-- The colliding domain of the collision test: every state yields the
same token while payloads keep changing. -/
def collisionDomain : Domain Nat :=
  { start := 0, state_token := fun _ => .str "same-token",
    is_terminal := fun _ => false, num_actions := fun _ => 1,
    step := fun s _ _ => (s + 1, 0, false) }

/-- The typed-simulator state produced by constructing a collision-checked
simulator over `collisionDomain` with seed 3. -/
def collisionSim : TypedSimState Nat :=
  { dom := collisionDomain, rng := rngOfSeed 3, check := true,
    entries := [(.str "same-token", 0)] }

/-- The domain of the bad-token test: its tokens are integers, neither
strings nor byte-strings. -/
def badTokenDomain : Domain Nat :=
  { start := 0, state_token := fun _ => .other,
    is_terminal := fun _ => true, num_actions := fun _ => 0,
    step := fun s _ _ => (s, 0, true) }

/-! ## Simulator determinism and statelessness (C1, C10) -/

/-- `pickOutcome` succeeds on any non-empty outcome list. -/
theorem pickOutcome_isSome (l : List Outcome) (u : ℚ) (h : l ≠ []) :
    ∃ o, pickOutcome l u = some o := by
  induction l generalizing u with
  | nil => exact absurd rfl h
  | cons o rest ih =>
    cases rest with
    | nil => exact ⟨o, rfl⟩
    | cons o2 r2 =>
      by_cases hu : u < o.prob
      · exact ⟨o, by simp [pickOutcome, hu]⟩
      · obtain ⟨o', ho'⟩ := ih (u - o.prob) (by simp)
        exact ⟨o', by simp [pickOutcome, hu, ho']⟩

/-- A successful step never changes the compiled MDP owned by the
simulator, only its RNG state. -/
theorem mdpStep_mdp {s s' : MdpSimState} {k a : Nat} {r : Nat × ℚ × Bool}
    (h : mdpStep s k a = .ok (r, s')) : s'.mdp = s.mdp := by
  unfold mdpStep at h
  rcases hg : s.mdp.states.get? k with _ | st <;> simp only [hg] at h
  · exact absurd h (by simp)
  · by_cases hterm : st.terminal = true
    · rw [if_pos hterm] at h
      exact absurd h (by simp)
    · rw [if_neg hterm] at h
      rcases ha : st.actions.get? a with _ | act <;> simp only [ha] at h
      · exact absurd h (by simp)
      · rcases hp : pickOutcome act.outcomes (rngUniform s.rng).1 with _ | o <;>
          simp only [hp] at h
        · exact absurd h (by simp)
        · rw [Except.ok.injEq, Prod.mk.injEq] at h
          rw [← h.2]

/-- Driving a simulator through any call sequence leaves its compiled
MDP unchanged. -/
theorem mdpRunCalls_mdp (s : MdpSimState) (calls : List (Nat × Nat)) :
    (mdpRunCalls s calls).mdp = s.mdp := by
  induction calls generalizing s with
  | nil => rfl
  | cons c rest ih =>
    obtain ⟨k, a⟩ := c
    unfold mdpRunCalls
    rcases hstep : mdpStep s k a with e | ⟨r, s'⟩
    · exact ih s
    · rw [ih s', mdpStep_mdp hstep]

/-- C1: two `MdpSimulator` instances built from the same `CompiledMdp`
and the same seed (hence agreeing on both fields) produce element-wise
identical `(next_key, reward, terminal)` step sequences when driven with
identical sequences of `(state_key, action)` step calls. -/
theorem mdp_trace_deterministic (a b : MdpSimState) (calls : List (Nat × Nat))
    (hmdp : a.mdp = b.mdp) (hrng : a.rng = b.rng) :
    mdpTrace a calls = mdpTrace b calls := by
  have hab : a = b := by
    cases a; cases b; cases hmdp; cases hrng; rfl
  rw [hab]

/-- Witness for C1: scenario S3 — seed 42, twenty `step(0, 0)` calls on
each of two instances yield equal traces. -/
theorem mdp_trace_deterministic_witness :
    mdpTrace (mkMdpSim s3Mdp 42) (List.replicate 20 (0, 0)) =
      mdpTrace (mkMdpSim s3Mdp 42) (List.replicate 20 (0, 0)) :=
  mdp_trace_deterministic (mkMdpSim s3Mdp 42) (mkMdpSim s3Mdp 42)
    (List.replicate 20 (0, 0)) rfl rfl

/-- C10: `MdpSimulator` keeps no current-position cursor.  First, a step's
result depends only on the compiled MDP, the arguments and the current
RNG state — two instances agreeing on those fields agree on any step,
whatever their histories.  Second, after an arbitrary sequence of prior
calls (in any order, from any keys), `step(k, a)` still succeeds for
every valid non-terminal key and legal action with a non-empty outcome
list. -/
theorem mdp_step_no_cursor :
    (∀ (s1 s2 : MdpSimState) (k a : Nat), s1.mdp = s2.mdp → s1.rng = s2.rng →
      mdpStep s1 k a = mdpStep s2 k a) ∧
    (∀ (s : MdpSimState) (calls : List (Nat × Nat)) (k a : Nat)
      (st : StateSpec) (act : ActionSpec),
      s.mdp.states.get? k = some st → st.terminal = false →
      st.actions.get? a = some act → act.outcomes ≠ [] →
      ∃ r s', mdpStep (mdpRunCalls s calls) k a = .ok (r, s')) := by
  constructor
  · intro s1 s2 k a hmdp hrng
    have : s1 = s2 := by
      cases s1; cases s2; cases hmdp; cases hrng; rfl
    rw [this]
  · intro s calls k a st act hk hterm ha hout
    obtain ⟨o, ho⟩ := pickOutcome_isSome act.outcomes
      (rngUniform (mdpRunCalls s calls).rng).1 hout
    refine ⟨(o.next, o.reward, s.mdp.is_terminal o.next),
      { mdp := s.mdp, rng := (rngUniform (mdpRunCalls s calls).rng).2 }, ?_⟩
    unfold mdpStep
    rw [mdpRunCalls_mdp, hk]
    simp only [hterm, Bool.false_eq_true, if_false, ha, ho]

/-- Witness for C10: after one prior call, `step(0, 0)` on the S3
simulator still succeeds. -/
theorem mdp_step_no_cursor_witness :
    ∃ r s', mdpStep (mdpRunCalls (mkMdpSim s3Mdp 42) [(0, 0)]) 0 0 = .ok (r, s') :=
  mdp_step_no_cursor.2 (mkMdpSim s3Mdp 42) [(0, 0)] 0 0
    { id := "s0", terminal := false, actions := [
        { id := "a0", outcomes := [
            { next := 0, prob := 3/5, reward := 0 },
            { next := 1, prob := 2/5, reward := 1 } ] } ] }
    { id := "a0", outcomes := [
        { next := 0, prob := 3/5, reward := 0 },
        { next := 1, prob := 2/5, reward := 1 } ] }
    rfl rfl rfl (by decide)

/-! ## TypedSimulator eager token check and collision check (C8, C6) -/

/-- C8: constructing a `TypedSimulator` interns the domain's start state
eagerly — whenever the start state's token is neither a string nor a
byte-string, construction itself fails with the token type error, before
any step is taken. -/
theorem typed_sim_rejects_bad_token {π : Type} [DecidableEq π]
    (dom : Domain π) (seed : Nat) (check : Bool)
    (h : (dom.state_token dom.start).ok = false) :
    mkTypedSim dom seed check =
      .error (.domainError "state token must be a string or byte-string") := by
  unfold mkTypedSim internPayload
  simp only [h, Bool.false_eq_true, if_false]

/-- Witness for C8: the integer-token domain of the bindings test fails
at construction. -/
theorem typed_sim_rejects_bad_token_witness :
    mkTypedSim badTokenDomain 1 false =
      .error (.domainError "state token must be a string or byte-string") :=
  typed_sim_rejects_bad_token badTokenDomain 1 false rfl

/-- C6: with `check_token_collisions = true`, the first `step_by_key`
call whose returned state carries a token already interned for a
different payload fails with the collision domain error instead of
silently aliasing the two states. -/
theorem typed_sim_collision_fails_fast {π : Type} [DecidableEq π]
    (s : TypedSimState π) (k a j : Nat) (tk : Token) (p q : π)
    (hchk : s.check = true)
    (hk : s.entries.get? k = some (tk, p))
    (hterm : s.dom.is_terminal p = false)
    (ha : a < s.dom.num_actions p)
    (hok : (s.dom.state_token (s.dom.step p a (rngUniform s.rng).1).1).ok = true)
    (hfind : findToken s.entries
      (s.dom.state_token (s.dom.step p a (rngUniform s.rng).1).1) = some (j, q))
    (hne : q ≠ (s.dom.step p a (rngUniform s.rng).1).1) :
    typedStep s k a =
      .error (.domainError "token collision between distinct states") := by
  unfold typedStep
  simp only [hk, hterm, Bool.false_eq_true, if_false, Nat.not_le.mpr ha, if_neg,
    if_false]
  unfold internPayload
  simp only [hok, if_true, hfind, hchk, hne, decide_not, true_and, Bool.true_and,
    decide_eq_true_eq, if_pos, ne_eq, not_false_eq_true]

/-- Witness for C6: the collision domain of the bindings test — the first
step from the start key fails fast. -/
theorem typed_sim_collision_fails_fast_witness :
    typedStep collisionSim 0 0 =
      .error (.domainError "token collision between distinct states") :=
  typed_sim_collision_fails_fast collisionSim 0 0 0 (.str "same-token") 0 0
    rfl rfl rfl (by decide) rfl rfl (by decide)

/-! ## Compiler validation and indexing (C4, C5) -/

/-- `idOf?` returns the position of a declaration with the sought id. -/
theorem idOf?_get {l : List StateDecl} {x : String} {i : Nat}
    (h : idOf? l x = some i) : (l.get? i).map (·.id) = some x := by
  induction l generalizing i with
  | nil => exact absurd h (by simp [idOf?])
  | cons s rest ih =>
    unfold idOf? at h
    by_cases hs : s.id = x
    · rw [if_pos hs] at h
      rw [Option.some.injEq] at h
      rw [← h]
      simp [hs]
    · rw [if_neg hs] at h
      rcases hr : idOf? rest x with _ | j <;> rw [hr] at h
      · exact absurd h (by simp)
      · simp at h
        rw [← h]
        simpa using ih hr

/-- A declarative document contains a bad action: the outcome
probabilities of some action sum to a value farther than the tolerance
from 1, or some outcome references an undeclared state id. -/
def hasBadAction (doc : MdpDoc) : Prop :=
  ∃ st ∈ doc.states, ∃ a ∈ st.actions,
    probTol < |probSum a - 1| ∨ ∃ o ∈ a.outcomes, idOf? doc.states o.next = none

/-- C4: compilation fails with a validation error (producing no
`CompiledMdp`) whenever some action has outcome probabilities summing
farther than 1e-6 from 1, or some outcome references an undeclared state
id. -/
theorem compile_rejects_bad_action (doc : MdpDoc) (h : hasBadAction doc) :
    ∃ msg, compile doc = .error (.validationError msg) := by
  unfold compile
  rcases hidx : idOf? doc.states doc.start with _ | k
  · exact ⟨_, rfl⟩
  · dsimp only
    by_cases hu : idsUnique doc = true
    · rw [if_pos hu]
      by_cases hs : doc.states.all (stateOk doc) = true
      · exfalso
        obtain ⟨st, hst, a, ha, hbad⟩ := h
        have h1 := (List.all_eq_true.mp hs) st hst
        unfold stateOk at h1
        by_cases hterm : st.terminal = true
        · rw [if_pos hterm, decide_eq_true_eq] at h1
          rw [h1] at ha
          exact absurd ha (List.not_mem_nil a)
        · rw [if_neg hterm] at h1
          have h2 := (List.all_eq_true.mp h1) a ha
          unfold actionOk at h2
          simp only [Bool.and_eq_true, decide_eq_true_eq, List.all_eq_true] at h2
          obtain ⟨⟨hne, hdecl⟩, htol⟩ := h2
          rcases hbad with htol2 | ⟨o, ho, hnone⟩
          · exact absurd htol (not_le.mpr htol2)
          · have hsome := hdecl o ho
            rw [hnone] at hsome
            exact absurd hsome (by simp)
      · rw [if_neg hs]
        exact ⟨_, rfl⟩
    · rw [if_neg hu]
      exact ⟨_, rfl⟩

/-- Witness for C4: scenario S2, an outcome referencing the undeclared
state `missing`, is rejected. -/
theorem compile_rejects_bad_action_witness :
    ∃ msg, compile s2Doc = .error (.validationError msg) := by
  refine compile_rejects_bad_action s2Doc
    ⟨{ id := "s0", terminal := false, actions := [
        { id := "a0", outcomes := [ { next := "missing", prob := 1, reward := 1 } ] } ] },
      by simp [s2Doc],
      { id := "a0", outcomes := [ { next := "missing", prob := 1, reward := 1 } ] },
      by simp [s2Doc],
      Or.inr ⟨{ next := "missing", prob := 1, reward := 1 }, by simp, ?_⟩⟩
  rfl

/-- C5: compilation assigns state keys in declaration order starting at
0 (the id at key `k` is the id of the `k`-th declaration), preserves the
declared state count, and `state_id(start_state_key())` is the declared
start id. -/
theorem compile_preserves_indexing (doc : MdpDoc) (m : CompiledMdp)
    (h : compile doc = .ok m) :
    m.state_count = doc.states.length ∧
    (∀ k, m.state_id k = (doc.states.get? k).map (·.id)) ∧
    m.state_id m.start_state_key = some doc.start := by
  unfold compile at h
  rcases hidx : idOf? doc.states doc.start with _ | sk <;> rw [hidx] at h
  · exact absurd h (by simp)
  · dsimp only at h
    by_cases hu : idsUnique doc = true
    · rw [if_pos hu] at h
      by_cases hs : doc.states.all (stateOk doc) = true
      · rw [if_pos hs, Except.ok.injEq] at h
        subst h
        refine ⟨by simp [CompiledMdp.state_count], ?_, ?_⟩
        · intro k
          unfold CompiledMdp.state_id
          rw [List.get?_map]
          cases doc.states.get? k <;> simp [compileState]
        · have hstart := idOf?_get hidx
          unfold CompiledMdp.state_id CompiledMdp.start_state_key
          rw [List.get?_map]
          rcases hg : doc.states.get? sk with _ | sd <;> rw [hg] at hstart
          · exact absurd hstart (by simp)
          · simpa [compileState] using hstart
      · rw [if_neg hs] at h
        exact absurd h (by simp)
    · rw [if_neg hu] at h
      exact absurd h (by simp)

/-- The compiled form of `validDoc`, written out. -/
def validMdp : CompiledMdp :=
  { start := 0,
    states := [
      { id := "s0", terminal := false, actions := [
          { id := "a0", outcomes := [
              { next := 1, prob := 7/10, reward := 1 },
              { next := 0, prob := 3/10, reward := 0 } ] },
          { id := "a1", outcomes := [
              { next := 2, prob := 1, reward := -1/5 } ] } ] },
      { id := "s1", terminal := true, actions := [] },
      { id := "s2", terminal := false, actions := [] } ] }

/-- The validation conditions hold for `validDoc`. -/
theorem validDoc_states_ok : validDoc.states.all (stateOk validDoc) = true := by
  norm_num [validDoc, stateOk, actionOk, probSum, probTol, idOf?]
  decide

/-- `validDoc` compiles to `validMdp`. -/
theorem compile_validDoc : compile validDoc = .ok validMdp := by
  unfold compile
  rw [show idOf? validDoc.states validDoc.start = some 0 from rfl]
  dsimp only
  rw [if_pos (show idsUnique validDoc = true by decide)]
  rw [if_pos validDoc_states_ok]
  rfl

/-- Witness for C5: the valid three-state document of the binding tests
compiles with its count, key order and start id preserved. -/
theorem compile_preserves_indexing_witness :
    validMdp.state_count = validDoc.states.length ∧
    (∀ k, validMdp.state_id k = (validDoc.states.get? k).map (·.id)) ∧
    validMdp.state_id validMdp.start_state_key = some validDoc.start :=
  compile_preserves_indexing validDoc validMdp compile_validDoc

/-! ## Run-result accounting (C3) -/

/-- C3: whenever `run` returns without an error, the reported
`iterations_completed` equals `config.iterations`; and `iterations = 0`
is accepted under a valid config, completing zero iterations and
returning the tree and simulator untouched (no statistics recorded). -/
theorem run_reports_iterations {σ : Type} (S : Sim σ) (cfg : SearchConfig)
    (pol : Option (Nat → Nat → Except String Nat)) (ract : Option Nat)
    (t : SearchTree) (s : σ) :
    (∀ out, run S cfg pol ract t s = .ok out →
        out.1.iterations_completed = cfg.iterations) ∧
    (validConfig cfg = true → cfg.iterations = 0 →
        run S cfg pol ract t s = .ok ({ iterations_completed := 0 }, t, s)) := by
  constructor
  · intro out hout
    unfold run at hout
    by_cases hv : validConfig cfg = true
    · rw [if_pos hv] at hout
      rcases hl : runLoop S cfg pol ract cfg.iterations t s with e | ⟨t', s'⟩ <;>
        rw [hl] at hout
      · exact absurd hout (by simp)
      · rw [Except.ok.injEq] at hout
        rw [← hout]
    · rw [if_neg hv] at hout
      exact absurd hout (by simp)
  · intro hv h0
    unfold run
    rw [if_pos hv, h0]
    rfl

/-- Witness for C3: a zero-iteration run over the S4 simulator returns
`iterations_completed = 0` and the untouched tree. -/
theorem run_reports_iterations_witness :
    run mdpSim { s4Cfg with iterations := 0 } none none
        (mkTree 0 false) (mkMdpSim s4Mdp 7) =
      .ok ({ iterations_completed := 0 }, mkTree 0 false, mkMdpSim s4Mdp 7) :=
  (run_reports_iterations mdpSim { s4Cfg with iterations := 0 } none none
    (mkTree 0 false) (mkMdpSim s4Mdp 7)).2 (by decide) rfl

/-! ## Empty-action states are terminal for search (C9) -/

/-- C9: a non-terminal state declared with an empty action list passes
compilation (the valid test document contains `s2` of that shape), the
simulator reports 0 actions for its key, and the search engine treats
such a state as terminal: rollout ends immediately at any key with no
legal action, and selection/expansion select no action from such a node. -/
theorem empty_actions_state_terminal_for_search :
    (compile validDoc = .ok validMdp ∧ validMdp.state_id 2 = some "s2" ∧
      validMdp.is_terminal 2 = false ∧ mdpNumActions validMdp 2 = 0) ∧
    (∀ (m : CompiledMdp) (k : Nat) (st : StateSpec), m.states.get? k = some st →
      st.actions = [] → mdpNumActions m k = 0) ∧
    (∀ (σ : Type) (S : Sim σ) (cfg : SearchConfig)
      (pol : Option (Nat → Nat → Except String Nat)) (ract : Option Nat)
      (fuel : Nat) (s : σ) (k steps : Nat) (acc : List ℚ),
      S.numActs s k = 0 → rollout S cfg pol ract fuel s k steps acc = .ok (acc, s)) ∧
    (∀ (σ : Type) (S : Sim σ) (cfg : SearchConfig) (fuel : Nat) (t : SearchTree)
      (s : σ) (nid steps : Nat) (path : List (Nat × Nat × ℚ)),
      S.numActs s (nodeAt t nid).state_key = 0 →
      descend S cfg fuel t s nid steps path = .ok (t, s, path, none, steps)) := by
  refine ⟨⟨compile_validDoc, rfl, rfl, rfl⟩, ?_, ?_, ?_⟩
  · intro m k st hk hempty
    unfold mdpNumActions
    simp only [hk]
    rw [hempty]
    cases st.terminal <;> simp
  · intro σ S cfg pol ract fuel s k steps acc h
    cases fuel with
    | zero => rfl
    | succ f =>
      rcases hT : S.isTerm s k <;> simp [rollout, hT, h]
  · intro σ S cfg fuel t s nid steps path h
    cases fuel with
    | zero => rfl
    | succ f =>
      rcases hT : (nodeAt t nid).terminal <;> simp [descend, hT, h]

/-- Witness for C9: descending from a node whose key is the empty-action
state of the compiled test document selects no action and stops at once. -/
theorem empty_actions_state_terminal_for_search_witness :
    descend mdpSim s4Cfg 5 (mkTree 2 false) (mkMdpSim validMdp 0) 0 0 [] =
      .ok (mkTree 2 false, mkMdpSim validMdp 0, [], none, 0) :=
  empty_actions_state_terminal_for_search.2.2.2 MdpSimState mdpSim s4Cfg 5
    (mkTree 2 false) (mkMdpSim validMdp 0) 0 0 [] rfl

/-! ## Policy errors propagate out of run (C7) -/

/-- The tree shape after the first expansion of the linear MDP. -/
def linTree1 : SearchTree :=
  { nodes := [
      { state_key := 0, terminal := false, visits := 0, children := [
          { action := 0, child := some 1, visits := 0, total_value := 0 } ] },
      { state_key := 1, terminal := false, visits := 0, children := [] } ] }

/-- Descending the fresh linear-MDP tree expands action 0 into state 1
and hands over to rollout. -/
theorem lin_descend (cfg : SearchConfig) (seed : Nat) (hh0 : horizonOk cfg 0 = true) :
    descend mdpSim cfg ((mkTree 0 false).nodes.length + cfg.max_steps + 1)
        (mkTree 0 false) (mkMdpSim linMdp seed) 0 0 [] =
      .ok (linTree1, { mdp := linMdp, rng := rngNext (rngOfSeed seed) },
        [(0, 0, 0)], some 1, 1) := by
  simp [descend, mkTree, nodeAt, mdpSim, mkMdpSim, mdpNumActions, linMdp,
    ensureEdges, modNode, listModify, setChildren, initEdges, firstUnexpanded,
    hh0, mdpStep, pickOutcome, CompiledMdp.is_terminal, wireEdge, rngUniform,
    linTree1, List.range_succ]

/-- C7: a rollout-policy callback that raises aborts the run and its
error escapes `run` unchanged in kind and message: for every message,
every seed and every config that reaches the rollout (two legal steps,
a valid discount), running the linear MDP with a failing policy returns
exactly the policy error carrying that message. -/
theorem run_propagates_policy_error (msg : String) (seed : Nat) (ract : Option Nat)
    (cfg : SearchConfig)
    (hg0 : 0 ≤ cfg.gamma) (hg1 : cfg.gamma ≤ 1)
    (hit : 1 ≤ cfg.iterations) (hms : 1 < cfg.max_steps)
    (hh0 : horizonOk cfg 0 = true) (hh1 : horizonOk cfg 1 = true) :
    run mdpSim cfg (some (fun _ _ => .error msg)) ract
        (mkTree 0 false) (mkMdpSim linMdp seed) = .error (.policyError msg) := by
  have hv : validConfig cfg = true := by
    simp [validConfig, hg0, hg1]
  have hroll : rollout mdpSim cfg (some (fun _ _ => .error msg)) ract
      (cfg.max_steps + 1) { mdp := linMdp, rng := rngNext (rngOfSeed seed) } 1 1 [] =
      .error (.policyError msg) := by
    simp [rollout, mdpSim, mdpNumActions, linMdp, stepAllowed, hms, hh1,
      chooseRolloutAction, CompiledMdp.is_terminal]
  have hstep : runIteration mdpSim cfg (some (fun _ _ => .error msg)) ract
      (mkTree 0 false) (mkMdpSim linMdp seed) = .error (.policyError msg) := by
    unfold runIteration
    rw [lin_descend cfg seed hh0]
    dsimp only
    rw [hroll]
  obtain ⟨n, hn⟩ : ∃ n, cfg.iterations = n + 1 := ⟨cfg.iterations - 1, by omega⟩
  unfold run
  rw [if_pos hv, hn]
  unfold runLoop
  rw [hstep]

/-- Witness for C7: the binding test's configuration and failing policy,
message `policy failure`, seed 1. -/
theorem run_propagates_policy_error_witness :
    run mdpSim linCfg (some (fun _ _ => .error "policy failure")) none
        (mkTree 0 false) (mkMdpSim linMdp 1) = .error (.policyError "policy failure") :=
  run_propagates_policy_error "policy failure" 1 none linCfg
    (by norm_num [linCfg]) (by norm_num [linCfg]) (by decide) (by decide) rfl rfl

/-! ## MCTS prefers the higher-reward terminal action (C2) -/

/-- Descending from a terminal node stops immediately: no action is
selected and no step is taken. -/
theorem descend_terminal {σ : Type} (S : Sim σ) (cfg : SearchConfig) (fuel : Nat)
    (t : SearchTree) (s : σ) (nid steps : Nat) (path : List (Nat × Nat × ℚ))
    (h : (nodeAt t nid).terminal = true) :
    descend S cfg fuel t s nid steps path = .ok (t, s, path, none, steps) := by
  cases fuel with
  | zero => rfl
  | succ f => simp [descend, h]

/-- UCB1 argmax over a two-edge list: the second edge wins exactly on a
strictly larger score. -/
theorem bestEdgeIdx_pair (c : ℚ) (pv : Nat) (e0 e1 : Edge) :
    bestEdgeIdx c pv [e0, e1] =
      if ucbScore c pv e0 < ucbScore c pv e1 then 1 else 0 := by
  simp [bestEdgeIdx, bestEdgeIdxAux]

/-- The invariant tree shape of the two-terminal-action scenario: a root
over the two wired edges whose totals are exactly `visits x reward`, and
the two terminal children. -/
def c2Tree (m : CompiledMdp) (k0 k1 : Nat) (r0 r1 : ℚ) (rv w0 w1 v0 v1 : Nat) :
    SearchTree :=
  { nodes := [
      { state_key := m.start, terminal := false, visits := rv, children := [
          { action := 0, child := some 1, visits := v0, total_value := (v0 : ℚ) * r0 },
          { action := 1, child := some 2, visits := v1, total_value := (v1 : ℚ) * r1 } ] },
      { state_key := k0, terminal := true, visits := w0, children := [] },
      { state_key := k1, terminal := true, visits := w1, children := [] } ] }

/-- The tree after the first iteration (action 0 expanded). -/
def c2TreeA (m : CompiledMdp) (k0 : Nat) (r0 : ℚ) : SearchTree :=
  { nodes := [
      { state_key := m.start, terminal := false, visits := 1, children := [
          { action := 0, child := some 1, visits := 1, total_value := r0 },
          { action := 1, child := none, visits := 0, total_value := 0 } ] },
      { state_key := k0, terminal := true, visits := 1, children := [] } ] }

/-- In the two-terminal-action scenario, stepping either root action
deterministically reaches the matching terminal state with its reward,
advancing only the RNG. -/
theorem c2_step (m : CompiledMdp) (st0 : StateSpec) (a0 a1 : ActionSpec)
    (k0 k1 : Nat) (r0 r1 : ℚ)
    (hroot : m.states[m.start]? = some st0) (hterm : st0.terminal = false)
    (hacts : st0.actions = [a0, a1])
    (ho0 : a0.outcomes = [{ next := k0, prob := 1, reward := r0 }])
    (ho1 : a1.outcomes = [{ next := k1, prob := 1, reward := r1 }])
    (hk0 : m.is_terminal k0 = true) (hk1 : m.is_terminal k1 = true)
    (s : MdpSimState) (hs : s.mdp = m) :
    mdpStep s m.start 0 = .ok ((k0, r0, true), { mdp := m, rng := rngNext s.rng }) ∧
    mdpStep s m.start 1 = .ok ((k1, r1, true), { mdp := m, rng := rngNext s.rng }) := by
  constructor <;>
    · unfold mdpStep
      simp [List.get?_eq_getElem?, hs, hroot, hterm, hacts, ho0, ho1, pickOutcome,
        rngUniform, hk0, hk1]

/-- One iteration from the invariant shape preserves it: whichever edge
selection re-samples (or none, when the step budget blocks selection),
edge totals remain `visits x reward`. -/
theorem c2_iter_inv (m : CompiledMdp) (st0 : StateSpec) (a0 a1 : ActionSpec)
    (k0 k1 : Nat) (r0 r1 : ℚ) (cfg : SearchConfig)
    (pol : Option (Nat → Nat → Except String Nat)) (ract : Option Nat)
    (hroot : m.states[m.start]? = some st0) (hterm : st0.terminal = false)
    (hacts : st0.actions = [a0, a1])
    (ho0 : a0.outcomes = [{ next := k0, prob := 1, reward := r0 }])
    (ho1 : a1.outcomes = [{ next := k1, prob := 1, reward := r1 }])
    (hk0 : m.is_terminal k0 = true) (hk1 : m.is_terminal k1 = true)
    (rv w0 w1 v0 v1 : Nat) (hv0 : 1 ≤ v0) (hv1 : 1 ≤ v1)
    (s : MdpSimState) (hs : s.mdp = m) :
    ∃ rv2 w02 w12 v02 v12 s2, 1 ≤ v02 ∧ 1 ≤ v12 ∧ s2.mdp = m ∧
      runIteration mdpSim cfg pol ract (c2Tree m k0 k1 r0 r1 rv w0 w1 v0 v1) s =
        .ok (c2Tree m k0 k1 r0 r1 rv2 w02 w12 v02 v12, s2) := by
  obtain ⟨hstep0, hstep1⟩ := c2_step m st0 a0 a1 k0 k1 r0 r1
    hroot hterm hacts ho0 ho1 hk0 hk1 s hs
  cases hSA : stepAllowed cfg 0 with
  | false =>
    refine ⟨rv + 1, w0, w1, v0, v1, s, hv0, hv1, hs, ?_⟩
    simp [List.get?_eq_getElem?, runIteration, descend, c2Tree, nodeAt, mdpSim, hs, hroot, hterm, hacts,
      mdpNumActions, ensureEdges, modNode, listModify, setChildren,
      firstUnexpanded, hSA, backprop, suffixReturns, backpropEdges, bumpVisits]
  | true =>
    by_cases hbest : ucbScore cfg.c rv
        { action := 0, child := some 1, visits := v0, total_value := (v0 : ℚ) * r0 } <
      ucbScore cfg.c rv
        { action := 1, child := some 2, visits := v1, total_value := (v1 : ℚ) * r1 }
    · refine ⟨rv + 1, w0, w1 + 1, v0, v1 + 1, { mdp := m, rng := rngNext s.rng },
        hv0, by omega, rfl, ?_⟩
      simp [List.get?_eq_getElem?, runIteration, descend, c2Tree, nodeAt, mdpSim,
        hs, hroot, hterm, hacts, mdpNumActions, ensureEdges, modNode, listModify,
        setChildren, firstUnexpanded, hSA, bestEdgeIdx_pair, if_pos hbest, hstep1,
        descend_terminal, backprop, suffixReturns, backpropEdges, bumpVisits,
        bumpEdge]
      ring
    · refine ⟨rv + 1, w0 + 1, w1, v0 + 1, v1, { mdp := m, rng := rngNext s.rng },
        by omega, hv1, rfl, ?_⟩
      simp [List.get?_eq_getElem?, runIteration, descend, c2Tree, nodeAt, mdpSim,
        hs, hroot, hterm, hacts, mdpNumActions, ensureEdges, modNode, listModify,
        setChildren, firstUnexpanded, hSA, bestEdgeIdx_pair, if_neg hbest, hstep0,
        descend_terminal, backprop, suffixReturns, backpropEdges, bumpVisits,
        bumpEdge]
      ring

/-- The first iteration from the fresh tree expands action 0 into its
terminal successor and records one visit with total `r0`. -/
theorem c2_iter1 (m : CompiledMdp) (st0 : StateSpec) (a0 a1 : ActionSpec)
    (k0 k1 : Nat) (r0 r1 : ℚ) (cfg : SearchConfig)
    (pol : Option (Nat → Nat → Except String Nat)) (ract : Option Nat)
    (hroot : m.states[m.start]? = some st0) (hterm : st0.terminal = false)
    (hacts : st0.actions = [a0, a1])
    (ho0 : a0.outcomes = [{ next := k0, prob := 1, reward := r0 }])
    (ho1 : a1.outcomes = [{ next := k1, prob := 1, reward := r1 }])
    (hk0 : m.is_terminal k0 = true) (hk1 : m.is_terminal k1 = true)
    (hhz : horizonOk cfg 0 = true)
    (s : MdpSimState) (hs : s.mdp = m) :
    runIteration mdpSim cfg pol ract (mkTree m.start false) s =
      .ok (c2TreeA m k0 r0, { mdp := m, rng := rngNext s.rng }) := by
  obtain ⟨hstep0, hstep1⟩ := c2_step m st0 a0 a1 k0 k1 r0 r1
    hroot hterm hacts ho0 ho1 hk0 hk1 s hs
  simp [List.get?_eq_getElem?, runIteration, descend, mkTree, nodeAt, mdpSim, hs,
    hroot, hterm, hacts, mdpNumActions, ensureEdges, modNode, listModify,
    setChildren, initEdges, List.range_succ, firstUnexpanded, hhz, hstep0,
    wireEdge, backprop, suffixReturns, backpropEdges, bumpVisits, bumpEdge,
    c2TreeA]

/-- The second iteration expands action 1 likewise, reaching the full
invariant shape with one visit and total `reward` on each edge. -/
theorem c2_iter2 (m : CompiledMdp) (st0 : StateSpec) (a0 a1 : ActionSpec)
    (k0 k1 : Nat) (r0 r1 : ℚ) (cfg : SearchConfig)
    (pol : Option (Nat → Nat → Except String Nat)) (ract : Option Nat)
    (hroot : m.states[m.start]? = some st0) (hterm : st0.terminal = false)
    (hacts : st0.actions = [a0, a1])
    (ho0 : a0.outcomes = [{ next := k0, prob := 1, reward := r0 }])
    (ho1 : a1.outcomes = [{ next := k1, prob := 1, reward := r1 }])
    (hk0 : m.is_terminal k0 = true) (hk1 : m.is_terminal k1 = true)
    (hhz : horizonOk cfg 0 = true)
    (s : MdpSimState) (hs : s.mdp = m) :
    runIteration mdpSim cfg pol ract (c2TreeA m k0 r0) s =
      .ok (c2Tree m k0 k1 r0 r1 2 1 1 1 1, { mdp := m, rng := rngNext s.rng }) := by
  obtain ⟨hstep0, hstep1⟩ := c2_step m st0 a0 a1 k0 k1 r0 r1
    hroot hterm hacts ho0 ho1 hk0 hk1 s hs
  simp [List.get?_eq_getElem?, runIteration, descend, c2TreeA, nodeAt, mdpSim, hs,
    hroot, hterm, hacts, mdpNumActions, ensureEdges, modNode, listModify,
    setChildren, firstUnexpanded, hhz, hstep1, wireEdge, backprop, suffixReturns,
    backpropEdges, bumpVisits, bumpEdge, c2Tree]

/-- Any number of further iterations preserves the invariant shape. -/
theorem c2_loop (m : CompiledMdp) (st0 : StateSpec) (a0 a1 : ActionSpec)
    (k0 k1 : Nat) (r0 r1 : ℚ) (cfg : SearchConfig)
    (pol : Option (Nat → Nat → Except String Nat)) (ract : Option Nat)
    (hroot : m.states[m.start]? = some st0) (hterm : st0.terminal = false)
    (hacts : st0.actions = [a0, a1])
    (ho0 : a0.outcomes = [{ next := k0, prob := 1, reward := r0 }])
    (ho1 : a1.outcomes = [{ next := k1, prob := 1, reward := r1 }])
    (hk0 : m.is_terminal k0 = true) (hk1 : m.is_terminal k1 = true) :
    ∀ (n : Nat) (rv w0 w1 v0 v1 : Nat), 1 ≤ v0 → 1 ≤ v1 →
      ∀ (s : MdpSimState), s.mdp = m →
      ∃ rv2 w02 w12 v02 v12 s2, 1 ≤ v02 ∧ 1 ≤ v12 ∧
        runLoop mdpSim cfg pol ract n (c2Tree m k0 k1 r0 r1 rv w0 w1 v0 v1) s =
          .ok (c2Tree m k0 k1 r0 r1 rv2 w02 w12 v02 v12, s2) := by
  intro n
  induction n with
  | zero =>
    intro rv w0 w1 v0 v1 hv0 hv1 s hs
    exact ⟨rv, w0, w1, v0, v1, s, hv0, hv1, rfl⟩
  | succ n ih =>
    intro rv w0 w1 v0 v1 hv0 hv1 s hs
    obtain ⟨rv2, w02, w12, v02, v12, s2, hv02, hv12, hs2, hit⟩ :=
      c2_iter_inv m st0 a0 a1 k0 k1 r0 r1 cfg pol ract
        hroot hterm hacts ho0 ho1 hk0 hk1 rv w0 w1 v0 v1 hv0 hv1 s hs
    obtain ⟨rv3, w03, w13, v03, v13, s3, hv03, hv13, hloop⟩ :=
      ih rv2 w02 w12 v02 v12 hv02 hv12 s2 hs2
    refine ⟨rv3, w03, w13, v03, v13, s3, hv03, hv13, ?_⟩
    unfold runLoop
    rw [hit]
    exact hloop

/-- On the invariant shape, `best_root_action_by_value` returns the edge
of the strictly larger reward. -/
theorem c2_best (m : CompiledMdp) (k0 k1 : Nat) (r0 r1 : ℚ)
    (rv w0 w1 v0 v1 : Nat) (hv0 : 1 ≤ v0) (hv1 : 1 ≤ v1) :
    bestRootActionByValue (c2Tree m k0 k1 r0 r1 rv w0 w1 v0 v1) =
      some (if r0 < r1 then 1 else 0) := by
  have hc0 : ((v0 : ℚ)) ≠ 0 := Nat.cast_ne_zero.mpr (by omega)
  have hc1 : ((v1 : ℚ)) ≠ 0 := Nat.cast_ne_zero.mpr (by omega)
  have hm0 : ((v0 : ℚ)) * r0 / (v0 : ℚ) = r0 := mul_div_cancel_left₀ r0 hc0
  have hm1 : ((v1 : ℚ)) * r1 / (v1 : ℚ) = r1 := mul_div_cancel_left₀ r1 hc1
  unfold bestRootActionByValue c2Tree nodeAt
  simp only [List.get?_eq_getElem?, List.getElem?_cons_zero, Option.getD_some]
  unfold bestByValueAux
  rw [if_neg (by omega : ¬ v0 = 0)]
  unfold bestByValueAux
  rw [if_neg (by omega : ¬ v1 = 0)]
  unfold bestByValueAux
  simp only [edgeMean, hm0, hm1]
  split_ifs <;> simp

/-- C2: for every deterministic MDP whose root offers exactly two
actions, each leading in one step (probability 1) to a terminal state,
with differing rewards, and for every seed, running the search with
exploration constant `c = 0`, at least 2 iterations, a valid discount
and a horizon admitting at least one step makes
`best_root_action_by_value` return the higher-reward action. -/
theorem mcts_prefers_higher_reward (m : CompiledMdp) (st0 : StateSpec)
    (a0 a1 : ActionSpec) (k0 k1 : Nat) (r0 r1 : ℚ) (cfg : SearchConfig)
    (pol : Option (Nat → Nat → Except String Nat)) (ract : Option Nat) (seed : Nat)
    (hroot : m.states[m.start]? = some st0) (hterm : st0.terminal = false)
    (hacts : st0.actions = [a0, a1])
    (ho0 : a0.outcomes = [{ next := k0, prob := 1, reward := r0 }])
    (ho1 : a1.outcomes = [{ next := k1, prob := 1, reward := r1 }])
    (hk0 : m.is_terminal k0 = true) (hk1 : m.is_terminal k1 = true)
    (hr : r0 ≠ r1) (hc : cfg.c = 0) (hit : 2 ≤ cfg.iterations)
    (hg0 : 0 ≤ cfg.gamma) (hg1 : cfg.gamma ≤ 1) (hhz : horizonOk cfg 0 = true) :
    ∃ res t2 s2,
      run mdpSim cfg pol ract (mkTree m.start false) (mkMdpSim m seed) =
        .ok (res, t2, s2) ∧
      bestRootActionByValue t2 = some (if r0 < r1 then 1 else 0) := by
  have hv : validConfig cfg = true := by
    simp [validConfig, hg0, hg1]
  obtain ⟨n, hn⟩ : ∃ n, cfg.iterations = n + 1 + 1 :=
    ⟨cfg.iterations - 2, by omega⟩
  have h1 := c2_iter1 m st0 a0 a1 k0 k1 r0 r1 cfg pol ract
    hroot hterm hacts ho0 ho1 hk0 hk1 hhz (mkMdpSim m seed) rfl
  have h2 := c2_iter2 m st0 a0 a1 k0 k1 r0 r1 cfg pol ract
    hroot hterm hacts ho0 ho1 hk0 hk1 hhz
    { mdp := m, rng := rngNext (mkMdpSim m seed).rng } rfl
  obtain ⟨rv2, w02, w12, v02, v12, s2, hv02, hv12, hloop⟩ :=
    c2_loop m st0 a0 a1 k0 k1 r0 r1 cfg pol ract
      hroot hterm hacts ho0 ho1 hk0 hk1 n 2 1 1 1 1 (by omega) (by omega)
      { mdp := m, rng := rngNext (rngNext (mkMdpSim m seed).rng) } rfl
  refine ⟨{ iterations_completed := cfg.iterations },
    c2Tree m k0 k1 r0 r1 rv2 w02 w12 v02 v12, s2, ?_,
    c2_best m k0 k1 r0 r1 rv2 w02 w12 v02 v12 hv02 hv12⟩
  unfold run
  rw [if_pos hv, hn]
  unfold runLoop
  rw [h1]
  dsimp only
  unfold runLoop
  rw [h2]
  dsimp only
  rw [hloop]

/-- Witness for C2: scenario S4 (rewards 1 and 5, seed 7, twenty
iterations, `c = 0`) ends with action 1 preferred by value. -/
theorem mcts_prefers_higher_reward_witness :
    ∃ res t2 s2,
      run mdpSim s4Cfg none (some 0) (mkTree s4Mdp.start false) (mkMdpSim s4Mdp 7) =
        .ok (res, t2, s2) ∧
      bestRootActionByValue t2 = some (if (1 : ℚ) < 5 then 1 else 0) :=
  mcts_prefers_higher_reward s4Mdp
    { id := "s0", terminal := false, actions := [
        { id := "a0", outcomes := [ { next := 1, prob := 1, reward := 1 } ] },
        { id := "a1", outcomes := [ { next := 2, prob := 1, reward := 5 } ] } ] }
    { id := "a0", outcomes := [ { next := 1, prob := 1, reward := 1 } ] }
    { id := "a1", outcomes := [ { next := 2, prob := 1, reward := 5 } ] }
    1 2 1 5 s4Cfg none (some 0) 7
    rfl rfl rfl rfl rfl rfl rfl (by norm_num) rfl (by decide)
    (by norm_num [s4Cfg]) (by norm_num [s4Cfg]) rfl

end Weavetree
